import Mathlib

/-!
Shallow embedding of the Frpc RPC runtime (github.com/univero/frpc):
the codec-level protocol types, the reflective service registry, the
server's dispatch path and the client's call-multiplexing engine, as
written in `codec/codec.go`, `server.go`, `service.go` and the client
file.  Go maps are modelled as association lists, Go `error` values as
an inductive `GoErr`, and the mutex-guarded client state as an explicit
state record threaded through the operations (each Go method on
`*Client` holds `c.mu` for its whole body, so an execution is a
sequential interleaving of these atomic state transformers).
-/

namespace Frpc

/-- Model of a Go `error` value.  `msg` is `errors.New(s)`;
`wrap s e` is `fmt.Errorf(s ++ ": %v", e)` applied to a non-nil error;
`wrapNil s` is the same format applied to a nil error (Go prints
`s ++ ": <nil>"`). -/
inductive GoErr where
  | msg (s : String)
  | wrap (s : String) (inner : GoErr)
  | wrapNil (s : String)
  deriving DecidableEq

/-- Model of `fmt.Errorf("<pre>: %v", e)` where `e : error` may be nil. -/
def errorf (pre : String) (e : Option GoErr) : GoErr :=
  match e with
  | some e' => .wrap pre e'
  | none => .wrapNil pre

/-- The distinguished client shutdown error `ErrShutDown`. -/
def ErrShutDown : GoErr := .msg "frpc: client is shut down"

/-- A `reflect.Type` as far as the registry inspects it: its `Name()` and
its `PkgPath()` (empty for built-in types). -/
structure GoType where
  name : String
  pkgPath : String
  deriving DecidableEq

/-- A runtime value travelling through the codec (argument, reply or the
`invalidRequest` sentinel is handled separately as a body).  `zeroOf t`
stands for the zero value `reflect.New(t).Elem()` manufactured by
`newReplyv`. -/
inductive Value where
  | unit
  | int (n : Int)
  | str (s : String)
  | zeroOf (t : GoType)
  deriving DecidableEq

/-- `codec.Header`: per-message metadata.  `Error` has Go type `error`,
nil on requests and on successful responses. -/
structure Header where
  ServiceMethod : String
  Seq : Nat
  Error : Option GoErr
  deriving DecidableEq

/-- Lookup in a Go map modelled as an association list
(`m[k]`, second result of the comma-ok form). -/
def lookupAssoc {κ α : Type} [DecidableEq κ] : List (κ × α) → κ → Option α
  | [], _ => none
  | (k', v) :: rest, k => if k' = k then some v else lookupAssoc rest k

/-- Map assignment `m[k] = v` on the association-list model: overwrites
the entry for `k` if present, otherwise appends it. -/
def setKey {κ α : Type} [DecidableEq κ] : List (κ × α) → κ → α → List (κ × α)
  | [], k, v => [(k, v)]
  | (k', v') :: rest, k, v =>
      if k' = k then (k, v) :: rest else (k', v') :: setKey rest k v

/-- Map deletion `delete(m, k)` on the association-list model. -/
def delKey {κ α : Type} [DecidableEq κ] (l : List (κ × α)) (k : κ) : List (κ × α) :=
  l.filter (fun p => !(decide (p.1 = k)))

/-- `ast.IsExported`: a name is exported when its first character is
upper-case (empty names are not exported). -/
def isExported (name : String) : Bool :=
  match name.toList with
  | [] => false
  | c :: _ => c.isUpper

/-- `isExportedOrBuiltinType` from `service.go`: exported name or empty
package path. -/
def isExportedOrBuiltinType (t : GoType) : Bool :=
  isExported t.name || t.pkgPath = ""

/-- One entry of a receiver's reflective method set, carrying exactly the
shape information `registerMethods` inspects plus the invocation
behaviour: `handler a r` models
`method.Func.Call([self, a, r])`, returning the `error` result and the
final contents of the reply slot (mutated in place in Go). -/
structure GoMethod where
  name : String
  numIn : Nat
  numOut : Nat
  outIsErrorType : Bool
  argType : GoType
  replyType : GoType
  handler : Value → Value → Option GoErr × Value

/-- `methodType` from `service.go`; `numCalls` is the invocation
counter. -/
structure MethodType where
  ArgType : GoType
  ReplyType : GoType
  handler : Value → Value → Option GoErr × Value
  numCalls : Nat

/-- `newReplyv`: a fresh zero value of the reply's pointee type (maps and
slices are additionally initialised empty; all cases are zero values of
the type, abstracted by `Value.zeroOf`). -/
def MethodType.newReplyv (m : MethodType) : Value :=
  .zeroOf m.ReplyType

/-- The filter applied by `registerMethods`: three inputs (receiver,
argument, reply), one output of type `error`, and argument and reply
types exported or built-in. -/
def methodQualifies (m : GoMethod) : Bool :=
  m.numIn = 3 && m.numOut = 1 && m.outIsErrorType
    && isExportedOrBuiltinType m.argType && isExportedOrBuiltinType m.replyType

/-- `registerMethods`: scan the method set in order and store a
`methodType` under each qualifying method's name. -/
def registerMethods (ms : List GoMethod) : List (String × MethodType) :=
  ms.foldl
    (fun acc m =>
      if methodQualifies m then
        setKey acc m.name ⟨m.argType, m.replyType, m.handler, 0⟩
      else acc)
    []

/-- `service` from `service.go`: the exported type name and the map of
qualifying methods.  (The bound receiver instance is captured inside each
method's `handler`.) -/
structure Service where
  name : String
  method : List (String × MethodType)

/-- A registrand as reflection sees it: the indirect type's `Name()` and
its method set. -/
structure Rcvr where
  typeName : String
  methods : List GoMethod

/-- Outcome of `newService`.  `fatal` models `log.Fatalf`, which logs and
then exits the whole process (it does not return to the caller). -/
inductive NewServiceResult where
  | ok (s : Service)
  | fatal (logMsg : String)

/-- `newService` from `service.go`: takes the receiver's type name, and if
it is not exported calls `log.Fatalf` (process exit) before any method is
registered; otherwise registers the qualifying methods. -/
def newService (rcvr : Rcvr) : NewServiceResult :=
  if isExported rcvr.typeName = false then
    .fatal ("rpc server: " ++ rcvr.typeName ++ " is not exported")
  else
    .ok { name := rcvr.typeName, method := registerMethods rcvr.methods }

/-- The server's `serviceMap` (`sync.Map`), modelled as an association
list from service name to service. -/
abbrev ServiceMap := List (String × Service)

/-- What `Server.Register` leaves behind for the caller: a nil error, the
duplicate-service error, or a `log.Fatalf` process exit raised inside
`newService` (in which case nothing is returned at all). -/
inductive RegisterResult where
  | ok
  | dupErr (e : GoErr)
  | fatal (logMsg : String)

/-- True exactly when the registration surfaced a (non-nil) error value to
the registrant as its return value. -/
def RegisterResult.isErrorReturn : RegisterResult → Bool
  | .dupErr _ => true
  | _ => false

/-- `Server.Register`: build the service via `newService`, then
`LoadOrStore` it in the service map; a name already present yields the
"service already defined" error and leaves the map unchanged. -/
def Register (sm : ServiceMap) (rcvr : Rcvr) : ServiceMap × RegisterResult :=
  match newService rcvr with
  | .fatal m => (sm, .fatal m)
  | .ok serv =>
      match lookupAssoc sm serv.name with
      | some _ =>
          (sm, .dupErr (.msg ("rpc server: service already defined, " ++ serv.name)))
      | none => (sm ++ [(serv.name, serv)], .ok)

/-- `service.call`: bump the method's call counter, invoke the handler
through reflection, and return the handler's `error` result together with
the updated counter and the mutated reply value. -/
def Service.call (_s : Service) (m : MethodType) (argv replyv : Value) :
    MethodType × Option GoErr × Value :=
  let m' : MethodType := { m with numCalls := m.numCalls + 1 }
  let r := m.handler argv replyv
  (m', r.1, r.2)

/-- Index of the last occurrence of `'.'` in the character list
(`strings.LastIndex(s, ".")`; `none` models the result `-1`). -/
def lastDotIdx : List Char → Option Nat
  | [] => none
  | c :: rest =>
      match lastDotIdx rest with
      | some i => some (i + 1)
      | none => if c = '.' then some 0 else none

/-- Possible outcomes of `findService`.  `panicNilAssert` records the run
of the line `serv = servi.(*service)` on a nil interface: when the
service-name load fails, `findService` assigns the "can't find service"
error but does not return, so this type assertion executes on the nil
`servi` and panics. -/
inductive FindOutcome where
  | ok (serv : Service) (mType : MethodType)
  | fail (e : GoErr)
  | panicNilAssert

/-- `Server.findService`: split `serviceMethod` at its last dot, load the
service from the service map, then look up the method in the service's
method map.  A missing dot and a missing method return explicit errors;
a missing service sets an error but then executes the nil type assertion,
which panics. -/
def findService (sm : ServiceMap) (serviceMethod : String) : FindOutcome :=
  match lastDotIdx serviceMethod.toList with
  | none =>
      .fail (.msg ("rpc server: service/method request ill-formed: " ++ serviceMethod))
  | some dot =>
      let servName := String.mk (serviceMethod.toList.take dot)
      let methodName := String.mk (serviceMethod.toList.drop (dot + 1))
      match lookupAssoc sm servName with
      | none => .panicNilAssert
      | some serv =>
          match lookupAssoc serv.method methodName with
          | none => .fail (.msg ("rpc server: can't find method: " ++ serviceMethod))
          | some mType => .ok serv mType

/-- Outcome of one `cc.ReadBody` call on the incoming stream: the decoded
value, or the decoder's error. -/
inductive BodyRead where
  | ok (v : Value)
  | fail (e : GoErr)
  deriving DecidableEq

/-- The loop-control error a `ReadBody` outcome leaves in `err`. -/
def BodyRead.readErr : BodyRead → Option GoErr
  | .ok _ => none
  | .fail e => some e

/-- One read attempt on a server connection, as the codec surfaces it:
either `ReadHeader` fails, or a header arrives followed by a body whose
decode outcome is `body`. -/
inductive ServerIn where
  | headerFail (e : GoErr)
  | msg (h : Header) (body : BodyRead)

/-- `request` from `server.go` (the fields `handleRequest` consumes). -/
structure Request where
  h : Header
  argv : Value
  replyv : Value
  mType : MethodType
  serv : Service

/-- A response body: the `invalidRequest` sentinel (`struct{}{}`) or a
reply value. -/
inductive RespBody where
  | invalidRequest
  | value (v : Value)

/-- One `Header`+body pair written by `sendResponse`. -/
structure Response where
  h : Header
  body : RespBody

/-- Outcome of `Server.readRequest` as `serverCodec` distinguishes them:
`fatal` is a nil request with an error (header unreadable — break out of
the loop), `failWithReq` is a non-nil request with an error (send an
error response and continue), `ok` is a fully parsed request, and
`panicked` propagates the nil-interface panic out of `findService`,
killing the connection's goroutine. -/
inductive ReadReqOutcome where
  | fatal
  | failWithReq (h : Header) (e : GoErr)
  | ok (req : Request)
  | panicked

/-- `Server.readRequest`: read the header, resolve the service and method,
then decode the body into a fresh argument value.  A resolution error or
a body-decode error returns the partially filled request together with
the error; a header-read error returns a nil request. -/
def readRequest (sm : ServiceMap) (m : ServerIn) : ReadReqOutcome :=
  match m with
  | .headerFail _ => .fatal
  | .msg h body =>
      match findService sm h.ServiceMethod with
      | .panicNilAssert => .panicked
      | .fail e => .failWithReq h e
      | .ok serv mType =>
          match body with
          | .fail e => .failWithReq h e
          | .ok v =>
              .ok { h := h, argv := v, replyv := mType.newReplyv,
                    mType := mType, serv := serv }

/-- What one iteration of the `serverCodec` loop does with one incoming
read: stop the loop (and drain), send an error response and continue,
spawn `handleRequest` for a parsed request, or die of the `findService`
panic. -/
inductive StepResult where
  | stop
  | errorResponse (r : Response)
  | dispatch (req : Request)
  | panicked

/-- One iteration of the `serverCodec` dispatch loop: on an unrecoverable
read, break; on a readable header whose resolution or body failed, set
the header's error, send it with the `invalidRequest` sentinel body and
continue; otherwise hand the request to `handleRequest` on its own
goroutine. -/
def serverStep (sm : ServiceMap) (m : ServerIn) : StepResult :=
  match readRequest sm m with
  | .fatal => .stop
  | .panicked => .panicked
  | .failWithReq h e =>
      .errorResponse { h := { h with Error := some e }, body := .invalidRequest }
  | .ok req => .dispatch req

/-- `Server.handleRequest`: invoke the resolved method and return, in
order, the `Header`+body pairs this goroutine passes to `sendResponse`.
When the handler returns an error the code sends the error response but
does not return, so it falls through and sends the reply-carrying
response as well. -/
def handleRequest (req : Request) : List Response :=
  let c := req.serv.call req.mType req.argv req.replyv
  match c.2.1 with
  | some err =>
      let h' : Header := { req.h with Error := some err }
      [ { h := h', body := .invalidRequest },
        { h := h', body := .value c.2.2 } ]
  | none => [ { h := req.h, body := .value c.2.2 } ]

/-- `MagicNumber`: the ASCII bytes of "FRPC". -/
def MagicNumber : Int := 0x46525043

/-- `codec.GobType`, the reference codec's tag. -/
def GobType : String := "application/gob"

/-- `Option` from `server.go` (named `Opt` here because `Option` is taken
in Lean): the handshake payload. -/
structure Opt where
  MagicNumber : Int
  CodecType : String
  deriving DecidableEq

/-- `DefaultOption`: protocol magic number and the gob codec. -/
def DefaultOption : Opt := { MagicNumber := MagicNumber, CodecType := GobType }

/-- `parseOptions` from the client: no options or a nil first option give
the default; more than one option is an error; otherwise the magic number
is overwritten with the default one and an empty codec type defaults to
gob. -/
def parseOptions (opts : List (Option Opt)) : Except GoErr Opt :=
  match opts with
  | [] => .ok DefaultOption
  | o :: rest =>
      match o with
      | none => .ok DefaultOption
      | some opt =>
          if rest.length + 1 ≠ 1 then
            .error (.msg "number of options is more than 1")
          else
            .ok { opt with
                  MagicNumber := DefaultOption.MagicNumber,
                  CodecType :=
                    if opt.CodecType = "" then DefaultOption.CodecType
                    else opt.CodecType }

/-- `Call` from the client: one in-flight or completed invocation.
`doneCount` counts how many times `call.done()` has pushed the call onto
its `Done` channel (a completion signal). -/
structure Call where
  Seq : Nat
  ServiceMethod : String
  Args : Value
  Reply : Value
  Error : Option GoErr
  doneCount : Nat
  deriving DecidableEq

/-- `call.done()`: push the call onto its completion channel once. -/
def Call.done (c : Call) : Call :=
  { c with doneCount := c.doneCount + 1 }

/-- `Client`: the mutex-protected mutable state of one client.
`streamCloses` counts calls to `cc.Close()` on the underlying codec. -/
structure Client where
  seq : Nat
  pending : List (Nat × Call)
  closing : Bool
  shutdown : Bool
  streamCloses : Nat
  deriving DecidableEq

/-- `newClientCodec`: the state of a freshly built client — next sequence
number 1, empty pending table, not closing, not shut down. -/
def newClientCodec : Client :=
  { seq := 1, pending := [], closing := false, shutdown := false, streamCloses := 0 }

/-- `Client.registerCall`: under the state lock, fail with `ErrShutDown`
if closing or shut down; otherwise stamp the call with the current
sequence number, insert it in the pending table and advance the
counter.  Returns the updated state, the assigned number (0 on failure)
and the error. -/
def registerCall (c : Client) (call : Call) : Client × Nat × Option GoErr :=
  if c.closing || c.shutdown then
    (c, 0, some ErrShutDown)
  else
    let call' : Call := { call with Seq := c.seq }
    ({ c with pending := setKey c.pending call'.Seq call', seq := c.seq + 1 },
     call'.Seq, none)

/-- `Client.removeCall`: under the state lock, take the call registered
under `seq` out of the pending table and return it. -/
def removeCall (c : Client) (seq : Nat) : Client × Option Call :=
  ({ c with pending := delKey c.pending seq }, lookupAssoc c.pending seq)

/-- `Client.terminateCall` (the termination broadcast): under the send
lock and then the state lock, mark the client shut down and, for every
call still pending, set its error to the given cause and signal its
completion channel. -/
def terminateCall (c : Client) (err : GoErr) : Client :=
  { c with
    shutdown := true,
    pending := c.pending.map (fun p => (p.1, ({ p.2 with Error := some err }).done)) }

/-- What `Client.Close` returns: the distinguished `ErrShutDown`, or
whatever the underlying `cc.Close()` returned. -/
inductive CloseResult where
  | errShutDown
  | underlyingClose
  deriving DecidableEq

/-- `Client.Close`: under the state lock, reject with `ErrShutDown` when
already closing; otherwise mark closing and close the underlying
codec stream (counted in `streamCloses`). -/
def Close (c : Client) : Client × CloseResult :=
  if c.closing then
    (c, .errShutDown)
  else
    ({ c with closing := true, streamCloses := c.streamCloses + 1 }, .underlyingClose)

/-- One read attempt in the client's receive loop: `ReadHeader` fails, or
a header arrives and the subsequent `ReadBody` has outcome `body`. -/
inductive ClientIn where
  | headerFail (e : GoErr)
  | msg (h : Header) (body : BodyRead)

/-- One iteration of the `receive` loop body after a header has been
read: remove the matching pending call; if there is none, read and
discard the body; if the header carries an error, record it (wrapped) on
the call and complete it; otherwise decode the body into the call's
reply slot and complete it — on a decode failure the code formats
`h.Error` (nil in this branch) into the recorded message, not the decode
error itself.  Returns the new state, the completed call (as handed to
its channel) and the loop-control error. -/
def receiveStep (c : Client) (h : Header) (body : BodyRead) :
    Client × Option Call × Option GoErr :=
  let rc := removeCall c h.Seq
  match rc.2 with
  | none => (rc.1, none, body.readErr)
  | some call =>
      match h.Error with
      | some he =>
          (rc.1,
           some ({ call with Error := some (errorf "frpc: header error" (some he)) }).done,
           body.readErr)
      | none =>
          match body with
          | .ok v => (rc.1, some ({ call with Reply := v }).done, none)
          | .fail e =>
              (rc.1,
               some ({ call with
                       Error := some (errorf "frpc: read body error" h.Error) }).done,
               some e)

/-- The `for err == nil` part of `Client.receive`, run over a prefix of
the incoming stream: process messages until some iteration leaves a
non-nil `err`, returning the state and that error; `none` means the
given reads were exhausted with the loop still running (blocked on the
next header). -/
def receiveSteps (c : Client) : List ClientIn → Option (Client × GoErr)
  | [] => none
  | .headerFail e :: _ => some (c, e)
  | .msg h body :: rest =>
      let r := receiveStep c h body
      match r.2.2 with
      | some e => some (r.1, e)
      | none => receiveSteps r.1 rest

/-- `Client.receive` in full: run the loop, then broadcast the
terminating error to every pending call via `terminateCall`. -/
def receive (c : Client) (ins : List ClientIn) : Option Client :=
  (receiveSteps c ins).map (fun p => terminateCall p.1 p.2)

/-- A fresh `Call` as `Client.Go` builds it, before registration. -/
def mkCall (serviceMethod : String) (args : Value) (reply : Value) : Call :=
  { Seq := 0, ServiceMethod := serviceMethod, Args := args, Reply := reply,
    Error := none, doneCount := 0 }

/-- Register `n` fresh calls one after another (the order in which `n`
concurrent senders pass through the `registerCall` critical section),
collecting the assigned sequence numbers of the successful
registrations and stopping at the first failure. -/
def registerN : Client → Nat → Client × List Nat
  | c, 0 => (c, [])
  | c, n + 1 =>
      let r := registerCall c (mkCall "" .unit .unit)
      match r.2.2 with
      | some _ => (r.1, [])
      | none =>
          let rest := registerN r.1 n
          (rest.1, r.2.1 :: rest.2)

/-! Concrete fixtures: a registry holding one service `Foo` with a
well-behaved method `Sum` and a method `Err` whose handler returns an
application error. -/

/-- A built-in integer type as reflection reports it. -/
def intType : GoType := { name := "Int", pkgPath := "" }

/-- Handler that succeeds, writing the argument into the reply slot. -/
def sumHandler : Value → Value → Option GoErr × Value := fun a _ => (none, a)

/-- Handler that fails with the application error "boom". -/
def boomHandler : Value → Value → Option GoErr × Value := fun _ r => (some (.msg "boom"), r)

/-- Method descriptor for `Foo.Sum`. -/
def sumMethod : MethodType :=
  { ArgType := intType, ReplyType := intType, handler := sumHandler, numCalls := 0 }

/-- Method descriptor for `Foo.Err`. -/
def errMethod : MethodType :=
  { ArgType := intType, ReplyType := intType, handler := boomHandler, numCalls := 0 }

/-- The registered service `Foo`. -/
def fooService : Service :=
  { name := "Foo", method := [("Sum", sumMethod), ("Err", errMethod)] }

/-- A service map holding only `Foo`. -/
def smFoo : ServiceMap := [("Foo", fooService)]

/-- A parsed request for `Foo.Err` (handler errors). -/
def errReq : Request :=
  { h := { ServiceMethod := "Foo.Err", Seq := 1, Error := none },
    argv := .int 3, replyv := .zeroOf intType, mType := errMethod, serv := fooService }

/-- A parsed request for `Foo.Sum` (handler succeeds). -/
def okReq : Request :=
  { h := { ServiceMethod := "Foo.Sum", Seq := 2, Error := none },
    argv := .int 3, replyv := .zeroOf intType, mType := sumMethod, serv := fooService }

/-- C1: the claim says the server writes exactly one Header+body pair per
dispatched request, error or not.  On the success path `handleRequest`
does write one response, but when the handler returns an application
error the missing early return makes it write the error response and
then fall through to write a second, reply-carrying response with the
same errored header: two pairs, not one. -/
theorem handleRequest_error_writes_two_responses :
    (handleRequest errReq).length = 2 ∧ (handleRequest okReq).length = 1 :=
  ⟨rfl, rfl⟩

/-- C2: the claim says `findService` always returns one of three explicit
failures or a match and never panics.  The missing-separator and
unknown-method cases do return explicit errors, but an unknown service
name reaches the type assertion `servi.(*service)` on a nil interface
(the error assignment is not followed by a return) and panics. -/
theorem findService_unknown_service_panics :
    findService smFoo "FooBar" =
      .fail (.msg "rpc server: service/method request ill-formed: FooBar") ∧
    findService smFoo "Foo.Nope" =
      .fail (.msg "rpc server: can't find method: Foo.Nope") ∧
    findService smFoo "Bar.Sum" = .panicNilAssert :=
  ⟨rfl, rfl, rfl⟩

/-- C3: the claim says a request naming an unknown service or unknown
method gets an error response with the `invalidRequest` sentinel body
and the loop keeps serving.  That holds for an unknown method, but a
request naming an unknown service panics inside `findService`, killing
the connection's dispatch goroutine instead of producing a response. -/
theorem serverStep_unknown_service_panics :
    serverStep smFoo (.msg { ServiceMethod := "Foo.Nope", Seq := 1, Error := none } (.ok .unit)) =
      .errorResponse
        { h := { ServiceMethod := "Foo.Nope", Seq := 1,
                 Error := some (.msg "rpc server: can't find method: Foo.Nope") },
          body := .invalidRequest } ∧
    serverStep smFoo (.msg { ServiceMethod := "Bar.Sum", Seq := 2, Error := none } (.ok .unit)) =
      .panicked :=
  ⟨rfl, rfl⟩

/-- Helper for C4: from any client state that is neither closing nor shut
down, `n` registrations are assigned the consecutive sequence numbers
`c.seq, c.seq+1, …, c.seq+n-1`. -/
theorem registerN_seqs (n : Nat) : ∀ c : Client, c.closing = false → c.shutdown = false →
    (registerN c n).2 = List.range' c.seq n := by
  induction n with
  | zero => intro c _ _; rfl
  | succ n ih =>
      intro c h1 h2
      simp only [registerN, registerCall, h1, h2, Bool.or_self, Bool.false_eq_true,
        if_false]
      rw [List.range'_succ]
      exact congrArg (c.seq :: ·) (ih _ rfl rfl)

/-- C4: on a fresh client, any sequence of `n` registrations (any order
in which concurrent senders pass through the lock-guarded
`registerCall`) all succeed and are assigned the sequence numbers
`1, 2, …, n`: `n` of them, pairwise distinct, strictly increasing, and
the first registered call gets 1. -/
theorem registerN_assigned_seqs (n : Nat) :
    (registerN newClientCodec n).2 = List.range' 1 n ∧
    ((registerN newClientCodec n).2).length = n ∧
    ((registerN newClientCodec n).2).Pairwise (· < ·) ∧
    ((registerN newClientCodec n).2).Nodup ∧
    ((registerN newClientCodec (n + 1)).2).head? = some 1 := by
  have h := registerN_seqs n newClientCodec rfl rfl
  have h' := registerN_seqs (n + 1) newClientCodec rfl rfl
  refine ⟨h, ?_, ?_, ?_, ?_⟩
  · rw [h]; exact List.length_range' 1 1 n
  · rw [h]; exact List.pairwise_lt_range' 1 n
  · rw [h]; exact List.nodup_range' 1 n
  · rw [h', List.range'_succ]; rfl

/-- C5: if the receive loop terminates with error `e` in state `c'`, the
termination broadcast `terminateCall` marks the client shut down, keeps
all `K` table entries, and gives every one of them the (non-nil) error
`e` and exactly one completion signal, so no pending call is left
awaiting completion. -/
theorem receive_broadcast_completes_pending (c c' : Client) (ins : List ClientIn)
    (e : GoErr) (hterm : receiveSteps c ins = some (c', e))
    (hawait : ∀ p ∈ c'.pending, p.2.doneCount = 0) :
    receive c ins = some (terminateCall c' e) ∧
    (terminateCall c' e).shutdown = true ∧
    (terminateCall c' e).pending.length = c'.pending.length ∧
    ∀ p ∈ (terminateCall c' e).pending, p.2.Error = some e ∧ p.2.doneCount = 1 := by
  refine ⟨by rw [receive, hterm]; rfl, rfl, by simp [terminateCall], ?_⟩
  intro p hp
  simp only [terminateCall, List.mem_map] at hp
  obtain ⟨q, hq, rfl⟩ := hp
  exact ⟨rfl, by simp [Call.done, hawait q hq]⟩

/-- Two calls pending on a client whose stream is about to be severed. -/
def sevCall1 : Call := { mkCall "Foo.Sum" .unit .unit with Seq := 1 }

/-- Second pending call of the severed-stream scenario. -/
def sevCall2 : Call := { mkCall "Foo.Err" .unit .unit with Seq := 2 }

/-- A client with two pending calls. -/
def sevClient : Client :=
  { newClientCodec with seq := 3, pending := [(1, sevCall1), (2, sevCall2)] }

/-- Witness for C5: a client with two pending calls whose next header
read fails with "EOF". -/
theorem receive_broadcast_completes_pending_witness :
    receiveSteps sevClient [.headerFail (.msg "EOF")] = some (sevClient, .msg "EOF") ∧
    sevClient.pending.all (fun p => p.2.doneCount == 0) = true ∧
    (terminateCall sevClient (.msg "EOF")).shutdown = true ∧
    (terminateCall sevClient (.msg "EOF")).pending.length = sevClient.pending.length :=
  ⟨rfl, by decide,
   (receive_broadcast_completes_pending sevClient sevClient [.headerFail (.msg "EOF")]
     (.msg "EOF") rfl (by decide)).2.1,
   (receive_broadcast_completes_pending sevClient sevClient [.headerFail (.msg "EOF")]
     (.msg "EOF") rfl (by decide)).2.2.1⟩

/-- A registrand whose type name `foo` is not exported. -/
def fooRcvr : Rcvr := { typeName := "foo", methods := [] }

/-- C6 counterexample: registering the non-exported `foo` does not
surface an error result to the registrant — `newService` hits
`log.Fatalf`, which exits the process, so `Register` never returns an
error value (and the map is untouched only because execution stops). -/
theorem register_nonexported_is_fatal_not_error :
    (Register ([] : ServiceMap) fooRcvr).2 = .fatal "rpc server: foo is not exported" ∧
    RegisterResult.isErrorReturn (Register ([] : ServiceMap) fooRcvr).2 = false ∧
    (Register ([] : ServiceMap) fooRcvr).1 = [] :=
  ⟨rfl, rfl, rfl⟩

/-- C6 (amended): registering an object whose type name is not exported
aborts via `log.Fatalf` inside `newService` — the whole registration
fails, nothing is stored, but the failure is a fatal process exit, not
an error result returned to the registrant. -/
theorem register_nonexported_fatal (sm : ServiceMap) (r : Rcvr)
    (h : isExported r.typeName = false) :
    (Register sm r).2 = .fatal ("rpc server: " ++ r.typeName ++ " is not exported") ∧
    (Register sm r).1 = sm := by
  simp [Register, newService, h]

/-- Witness for the amended C6 at the concrete registrand `foo`. -/
theorem register_nonexported_fatal_witness :
    isExported "foo" = false ∧
    (Register ([] : ServiceMap) fooRcvr).2 = .fatal "rpc server: foo is not exported" ∧
    (Register ([] : ServiceMap) fooRcvr).1 = [] :=
  ⟨by decide, (register_nonexported_fatal [] fooRcvr (by decide)).1,
   (register_nonexported_fatal [] fooRcvr (by decide)).2⟩

/-- C7: a second `Close` on an already-closed client returns the
distinguished `ErrShutDown` result, leaves the client state exactly as
the first close left it, and does not close the underlying stream a
second time. -/
theorem close_twice_rejected (c : Client) (h : c.closing = false) :
    (Close (Close c).1).2 = .errShutDown ∧
    (Close (Close c).1).1 = (Close c).1 ∧
    (Close (Close c).1).1.streamCloses = c.streamCloses + 1 := by
  simp [Close, h]

/-- Witness for C7 on a fresh client. -/
theorem close_twice_rejected_witness :
    newClientCodec.closing = false ∧
    (Close (Close newClientCodec).1).2 = CloseResult.errShutDown ∧
    (Close (Close newClientCodec).1).1 = (Close newClientCodec).1 ∧
    (Close (Close newClientCodec).1).1.streamCloses = newClientCodec.streamCloses + 1 :=
  ⟨rfl, (close_twice_rejected newClientCodec rfl).1,
   (close_twice_rejected newClientCodec rfl).2.1,
   (close_twice_rejected newClientCodec rfl).2.2⟩

/-- C8: registering a second service under a name already in the map
returns the "service already defined" error, leaves the map unchanged,
and therefore leaves every service/method lookup — in particular every
method of the first registration — resolving exactly as before. -/
theorem register_duplicate_rejected (sm : ServiceMap) (r : Rcvr) (sv : Service)
    (hexp : isExported r.typeName = true)
    (hdup : lookupAssoc sm r.typeName = some sv) :
    (Register sm r).1 = sm ∧
    (Register sm r).2 =
      .dupErr (.msg ("rpc server: service already defined, " ++ r.typeName)) ∧
    ∀ q : String, findService (Register sm r).1 q = findService sm q := by
  have hok : (Register sm r).1 = sm ∧ (Register sm r).2 =
      .dupErr (.msg ("rpc server: service already defined, " ++ r.typeName)) := by
    simp [Register, newService, hexp, hdup]
  exact ⟨hok.1, hok.2, fun q => by rw [hok.1]⟩

/-- A second registrand also named `Foo`. -/
def fooRcvr2 : Rcvr := { typeName := "Foo", methods := [] }

/-- Witness for C8: re-registering the name `Foo` on a map that already
holds `Foo`. -/
theorem register_duplicate_rejected_witness :
    isExported "Foo" = true ∧
    lookupAssoc smFoo "Foo" = some fooService ∧
    (Register smFoo fooRcvr2).1 = smFoo ∧
    (Register smFoo fooRcvr2).2 =
      .dupErr (.msg "rpc server: service already defined, Foo") :=
  ⟨by decide, rfl,
   (register_duplicate_rejected smFoo fooRcvr2 fooService (by decide) rfl).1,
   (register_duplicate_rejected smFoo fooRcvr2 fooService (by decide) rfl).2.1⟩

/-- The pending call of the decode-failure scenario. -/
def rbCall : Call := { mkCall "Foo.Sum" .unit .unit with Seq := 5 }

/-- A client with `rbCall` pending under sequence number 5. -/
def rbClient : Client := { newClientCodec with seq := 6, pending := [(5, rbCall)] }

/-- C9: the claim says that when the header carries no error and decoding
the body into the reply slot fails, the decode failure is recorded as
the Call's error.  The code completes the call with a non-nil error, but
it formats `h.Error` — nil in this branch — into the message instead of
the decode error, so the recorded error is the constant
"frpc: read body error: <nil>" and the decode failure is dropped. -/
theorem receive_decode_failure_not_recorded :
    (receiveStep rbClient { ServiceMethod := "Foo.Sum", Seq := 5, Error := none }
        (.fail (.msg "gob: decode failure"))).2.1 =
      some { rbCall with
             Error := some (.wrapNil "frpc: read body error"), doneCount := 1 } ∧
    (receiveStep rbClient { ServiceMethod := "Foo.Sum", Seq := 5, Error := none }
        (.fail (.msg "gob: decode failure"))).2.2 =
      some (.msg "gob: decode failure") ∧
    GoErr.wrapNil "frpc: read body error" ≠
      GoErr.wrap "frpc: read body error" (.msg "gob: decode failure") ∧
    GoErr.wrapNil "frpc: read body error" ≠ GoErr.msg "gob: decode failure" :=
  ⟨rfl, rfl, by decide, by decide⟩

/-- C10: whatever options the caller hands to `parseOptions` (used by
`Dial` before any handshake is sent), every accepted result carries the
protocol's magic constant — the caller-supplied magic number is always
overwritten. -/
theorem parseOptions_magic (opts : List (Option Opt)) (res : Opt)
    (h : parseOptions opts = .ok res) :
    res.MagicNumber = MagicNumber := by
  match opts with
  | [] =>
      simp only [parseOptions, Except.ok.injEq] at h
      exact h ▸ rfl
  | none :: rest =>
      simp only [parseOptions, Except.ok.injEq] at h
      exact h ▸ rfl
  | some opt :: rest =>
      simp only [parseOptions] at h
      split at h
      · exact absurd h (by simp)
      · simp only [Except.ok.injEq] at h
        exact h ▸ rfl

/-- Witness for C10: a caller-supplied option with a wrong magic number
(0) still parses to the protocol magic number. -/
theorem parseOptions_magic_witness :
    parseOptions [some { MagicNumber := 0, CodecType := "" }] =
      .ok { MagicNumber := MagicNumber, CodecType := GobType } ∧
    ({ MagicNumber := MagicNumber, CodecType := GobType } : Opt).MagicNumber =
      MagicNumber :=
  ⟨rfl, parseOptions_magic [some { MagicNumber := 0, CodecType := "" }]
    { MagicNumber := MagicNumber, CodecType := GobType } rfl⟩

end Frpc
